import Mathlib

/-!
Verification of the receipt-analyzer parsing/categorization/analysis core.

We shallow-embed the Python modules `data_parser.py`, `categorizer.py` and
`analyzer.py`.  Strings are `List Char`; Python floats are modelled as exact
rationals `ℚ`; Python dicts (which preserve insertion order) are association
lists with unique keys maintained by construction.

Python's `re` matching for the two patterns used by the parser
(`\$?\s*(\d+\.?\d{2})` and `(\d+)\s*x\s*`) is embedded with a tiny
priority-ordered backtracking matcher: a matcher returns the list of
(consumed, rest) splits in backtracking priority order (greedy first), and
the first element is the match Python selects.  Both patterns only star/plus
single-character classes, so greedy repetition enumerates run prefixes
longest-first, exactly as the backtracking engine does.
-/

namespace Receipt

/-- Strings as character lists (Python `str`). -/
abbrev Str := List Char

/-- Coerce a Lean string literal to our character-list representation. -/
def str (s : String) : Str := s.data

/-- Predicate `prefixMatch needle hay`: does `needle` occur at the start of `hay`?
Models Python's literal matching at a fixed position. -/
def prefixMatch : Str → Str → Bool
  | [], _ => true
  | _ :: _, [] => false
  | a :: as, b :: bs => a == b && prefixMatch as bs

/-- Predicate `occursIn needle hay`: Python's `needle in hay` substring test
(also `re.search` for a literal pattern). -/
def occursIn (needle : Str) : Str → Bool
  | [] => needle.isEmpty
  | c :: rest => prefixMatch needle (c :: rest) || occursIn needle rest

/-- Python `\s` on the ASCII range: space, tab, newline, carriage return,
vertical tab, form feed. -/
def pyIsSpace (c : Char) : Bool :=
  c == ' ' || c == '\t' || c == '\n' || c == '\r' || c == '\x0b' || c == '\x0c'

/-- Python `\w` on the ASCII range: alphanumerics and underscore. -/
def pyIsWord (c : Char) : Bool := c.isAlphanum || c == '_'

/-- A matcher returns all (consumed, rest) splits in backtracking priority
order; the head is the alternative Python's engine commits to. -/
def Matcher : Type := Str → List (Str × Str)

/-- Match a single character of a class (`\d`, `\s`, a literal char). -/
def mClass (p : Char → Bool) : Matcher := fun s =>
  match s with
  | [] => []
  | c :: rest => if p c then [([c], rest)] else []

/-- Match a literal character. -/
def mChar (c : Char) : Matcher := mClass (fun x => x == c)

/-- Sequencing; priority is lexicographic with the first matcher major,
as in a backtracking engine. -/
def mSeq (a b : Matcher) : Matcher := fun s =>
  (a s).flatMap (fun pr => (b pr.2).map (fun qr => (pr.1 ++ qr.1, qr.2)))

/-- Greedy `?`: try consuming first, then the empty alternative. -/
def mOpt (a : Matcher) : Matcher := fun s => a s ++ [([], s)]

/-- Greedy `*` over a single-character class: consume the maximal run,
backtracking shorter prefixes in decreasing length order. -/
def mStarClass (p : Char → Bool) : Matcher := fun s =>
  (List.range (s.takeWhile p).length.succ).reverse.map
    (fun k => ((s.takeWhile p).take k, (s.takeWhile p).drop k ++ s.dropWhile p))

/-- Greedy `+` over a single-character class. -/
def mPlusClass (p : Char → Bool) : Matcher := mSeq (mClass p) (mStarClass p)

/-- The capturing group `\d+\.?\d{2}` of the price pattern. -/
def priceCore : Matcher :=
  mSeq (mPlusClass Char.isDigit)
    (mSeq (mOpt (mChar '.')) (mSeq (mClass Char.isDigit) (mClass Char.isDigit)))

/-- Attempt the price pattern `\$?\s*(\d+\.?\d{2})` anchored at the start of
`s`.  Returns (full match, captured group, rest) for the engine's chosen
alternative. -/
def priceAt (s : Str) : Option (Str × Str × Str) :=
  ((mSeq (mOpt (mChar '$')) (mStarClass pyIsSpace)) s |>.flatMap
    (fun pr => (priceCore pr.2).map (fun qr => (pr.1 ++ qr.1, qr.1, qr.2)))).head?

/-- The `re.findall` scan for the price pattern: try each position left to
right, emit the captured group and resume after the match.  Fuel bounds the
recursion; every match consumes at least one character, so `length + 1` fuel
never runs out. -/
def findAllPriceGo : Nat → Str → List Str
  | 0, _ => []
  | _ + 1, [] => []
  | fuel + 1, c :: rest =>
    match priceAt (c :: rest) with
    | some (_, grp, r) => grp :: findAllPriceGo fuel r
    | none => findAllPriceGo fuel rest

/-- Embeds `re.findall(self.price_pattern, line)` — the list of captured groups. -/
def reFindallPrice (s : Str) : List Str := findAllPriceGo (s.length + 1) s

/-- Embeds `re.sub(self.price_pattern, '', line)` — delete every full match. -/
def subPriceGo : Nat → Str → Str
  | 0, s => s
  | _ + 1, [] => []
  | fuel + 1, c :: rest =>
    match priceAt (c :: rest) with
    | some (_, _, r) => subPriceGo fuel r
    | none => c :: subPriceGo fuel rest

def reSubPrice (s : Str) : Str := subPriceGo (s.length + 1) s

/-- Attempt the quantity pattern `(\d+)\s*x\s*` anchored at the start of
`s`.  Returns (full match, captured digits, rest). -/
def quantAt (s : Str) : Option (Str × Str × Str) :=
  ((mPlusClass Char.isDigit) s |>.flatMap
    (fun pr =>
      ((mSeq (mStarClass pyIsSpace) (mSeq (mChar 'x') (mStarClass pyIsSpace))) pr.2).map
        (fun qr => (pr.1 ++ qr.1, pr.1, qr.2)))).head?

/-- Embeds `re.search(self.quantity_pattern, line)` — first match's captured digits. -/
def searchQuantGo : Nat → Str → Option Str
  | 0, _ => none
  | _ + 1, [] => none
  | fuel + 1, c :: rest =>
    match quantAt (c :: rest) with
    | some (_, grp, _) => some grp
    | none => searchQuantGo fuel rest

def reSearchQuant (s : Str) : Option Str := searchQuantGo (s.length + 1) s

/-- Embeds `re.sub(self.quantity_pattern, '', line)`. -/
def subQuantGo : Nat → Str → Str
  | 0, s => s
  | _ + 1, [] => []
  | fuel + 1, c :: rest =>
    match quantAt (c :: rest) with
    | some (_, _, r) => subQuantGo fuel r
    | none => c :: subQuantGo fuel rest

def reSubQuant (s : Str) : Str := subQuantGo (s.length + 1) s

/-- Numeric value of a digit character. -/
def digitVal (c : Char) : Nat := c.toNat - '0'.toNat

/-- Value of a digit string, most significant first (`int`/`float` on a
digit run). -/
def digitsToNat (s : Str) : Nat := s.foldl (fun a c => 10 * a + digitVal c) 0

/-- Python `float()` on the strings captured by the price pattern (digits
with at most one decimal point), as an exact rational: the digits before
the point are the integer part, the digits after it the fractional part. -/
def ratOfDigits (s : Str) : ℚ :=
  match s.dropWhile (fun c => c != '.') with
  | [] => (digitsToNat s : ℚ)
  | _ :: frac =>
    mkRat (digitsToNat (s.takeWhile (fun c => c != '.')) * 10 ^ frac.length
      + digitsToNat frac) (10 ^ frac.length)

/-- The `ReceiptItem` dataclass of `data_parser.py`. -/
structure ReceiptItem where
  name : Str
  quantity : ℚ := 1
  price : ℚ := 0
  category : Str := str "Uncategorized"
deriving DecidableEq, Repr

/-- Embeds `DataParser.ignore_patterns` (all patterns are literal strings). -/
def ignorePatterns : List Str :=
  [str "total", str "subtotal", str "tax", str "balance", str "due",
   str "change", str "cash", str "card", str "visa", str "mastercard",
   str "amex", str "receipt", str "thank you", str "store", str "address",
   str "phone", str "date", str "time", str "cashier", str "register"]

/-- Embeds `DataParser._should_ignore`: some ignore pattern occurs in the
lower-cased line. -/
def shouldIgnore (line : Str) : Bool :=
  ignorePatterns.any (fun p => occursIn p (line.map Char.toLower))

/-- Python `str.strip()`: drop leading and trailing whitespace. -/
def stripStr (s : Str) : Str :=
  ((s.dropWhile pyIsSpace).reverse.dropWhile pyIsSpace).reverse

/-- Embeds `re.sub(r'\s+', ' ', s)`: collapse each maximal whitespace run to a
single space (fueled recursion; fuel `length` suffices). -/
def collapseSpacesGo : Nat → Str → Str
  | 0, s => s
  | _ + 1, [] => []
  | fuel + 1, c :: rest =>
    if pyIsSpace c then ' ' :: collapseSpacesGo fuel (rest.dropWhile pyIsSpace)
    else c :: collapseSpacesGo fuel rest

def collapseSpaces (s : Str) : Str := collapseSpacesGo s.length s

/-- Python `str.title()` on the ASCII range: a letter starts upper-case
after a non-letter, and is lower-cased otherwise. -/
def titleGo : Bool → Str → Str
  | _, [] => []
  | prevAlpha, c :: rest =>
    (if c.isAlpha then (if prevAlpha then c.toLower else c.toUpper) else c)
      :: titleGo c.isAlpha rest

def titleStr (s : Str) : Str := titleGo false s

/-- Embeds `DataParser._extract_item_name`: delete price and quantity matches,
replace every character that is not word/space/hyphen/period by a space,
collapse whitespace, strip, title-case. -/
def extractItemName (line : Str) : Str :=
  titleStr (stripStr (collapseSpaces
    ((reSubQuant (reSubPrice line)).map
      (fun c => if pyIsWord c || pyIsSpace c || c == '-' || c == '.' then c else ' '))))

/-- The quantity rule of `DataParser.parse`: captured digits of the first
quantity-marker match, defaulting to `1.0` when absent. -/
def quantityOfLine (line : Str) : ℚ :=
  match reSearchQuant line with
  | some ds => (digitsToNat ds : ℚ)
  | none => 1

/-- The per-line body of `DataParser.parse`: skip ignored lines, require a
price match, take the last captured price, reject prices outside
`[0.01, 1000]`, extract quantity and name, and accept only names longer
than two characters. -/
def parseLine (line : Str) : Option ReceiptItem :=
  if shouldIgnore line then none
  else
    match reFindallPrice line with
    | [] => none
    | m :: ms =>
      if ratOfDigits ((m :: ms).getLast (List.cons_ne_nil m ms)) > 1000
          ∨ ratOfDigits ((m :: ms).getLast (List.cons_ne_nil m ms)) < mkRat 1 100 then none
      else if (extractItemName line).length > 2 then
        some
          { name := extractItemName line
            quantity := quantityOfLine line
            price := ratOfDigits ((m :: ms).getLast (List.cons_ne_nil m ms))
            category := str "Uncategorized" }
      else none

/-- Embeds `DataParser.parse`: strip the text, split on newlines, parse each line. -/
def parse (text : Str) : List ReceiptItem :=
  ((stripStr text).splitOn '\n').filterMap parseLine

/-- Embeds `DataParser.calculate_total`. -/
def calculate_total (items : List ReceiptItem) : ℚ :=
  (items.map (fun it => it.price)).sum

/-- One main category of the taxonomy: name, top-level keywords, and
ordered subcategories with their keyword lists. -/
structure CatDef where
  mainName : Str
  keywords : List Str
  subcats : List (Str × List Str)

/-- Embeds `ExpenseCategorizer.categories`, in definition order. -/
def taxonomy : List CatDef :=
  [⟨str "Groceries",
    [str "grocery", str "supermarket", str "food", str "mart", str "market"],
    [(str "Dairy", [str "milk", str "cheese", str "yogurt", str "butter", str "cream", str "eggs"]),
     (str "Meat", [str "chicken", str "beef", str "pork", str "fish", str "meat", str "seafood"]),
     (str "Produce", [str "apple", str "banana", str "orange", str "vegetable", str "fruit", str "lettuce", str "tomato"]),
     (str "Bakery", [str "bread", str "cake", str "muffin", str "donut", str "pastry", str "bagel"]),
     (str "Beverages", [str "water", str "soda", str "juice", str "coffee", str "tea", str "drink"]),
     (str "Snacks", [str "chip", str "candy", str "chocolate", str "cookie", str "snack", str "cracker"]),
     (str "Frozen", [str "frozen", str "ice cream", str "pizza"]),
     (str "Pantry", [str "rice", str "pasta", str "cereal", str "sauce", str "can", str "oil"])]⟩,
   ⟨str "Dining",
    [str "restaurant", str "cafe", str "starbucks", str "mcdonald", str "pizza hut", str "kfc"],
    [(str "Fast Food", [str "burger", str "fries", str "mcdonald", str "kfc", str "wendy"]),
     (str "Restaurant", [str "dinner", str "lunch", str "breakfast", str "restaurant"]),
     (str "Coffee Shop", [str "starbucks", str "coffee", str "cafe"])]⟩,
   ⟨str "Shopping",
    [str "walmart", str "target", str "costco", str "amazon", str "mall", str "store"],
    [(str "Clothing", [str "shirt", str "pant", str "jean", str "dress", str "shoe"]),
     (str "Electronics", [str "phone", str "charger", str "cable", str "battery"]),
     (str "Household", [str "cleaning", str "towel", str "paper", str "soap"])]⟩,
   ⟨str "Transportation",
    [str "gas", str "uber", str "lyft", str "taxi", str "transit", str "metro", str "bus"],
    [(str "Fuel", [str "gas", str "petrol"]),
     (str "Rideshare", [str "uber", str "lyft", str "taxi"]),
     (str "Public Transit", [str "bus", str "metro", str "train"])]⟩,
   ⟨str "Healthcare",
    [str "pharmacy", str "cvs", str "walgreens", str "medical", str "doctor"],
    [(str "Pharmacy", [str "medicine", str "pill", str "vitamin"]),
     (str "Medical", [str "doctor", str "clinic", str "hospital"])]⟩]

/-- First subcategory (in defined order) one of whose keywords occurs in
the lower-cased name. -/
def subcatMatch (low : Str) : List (Str × List Str) → Option Str
  | [] => none
  | (sname, kws) :: rest =>
    if kws.any (fun k => occursIn k low) then some sname else subcatMatch low rest

/-- Embeds `ExpenseCategorizer._get_category`, generic in the taxonomy list: if a
main category's keyword occurs, return it with its first matching
subcategory (or none); otherwise still return it with its first matching
subcategory if one matches; otherwise move on; exhausted, `("Other", None)`. -/
def getCategoryIn (low : Str) : List CatDef → Str × Option Str
  | [] => (str "Other", none)
  | cd :: rest =>
    if cd.keywords.any (fun k => occursIn k low) then
      match subcatMatch low cd.subcats with
      | some s => (cd.mainName, some s)
      | none => (cd.mainName, none)
    else
      match subcatMatch low cd.subcats with
      | some s => (cd.mainName, some s)
      | none => getCategoryIn low rest

def getCategory (name : Str) : Str × Option Str :=
  getCategoryIn (name.map Char.toLower) taxonomy

/-- Embeds `f"{category} > {subcategory}" if subcategory else category`. -/
def fullPath (p : Str × Option Str) : Str :=
  match p.2 with
  | some s => p.1 ++ str " > " ++ s
  | none => p.1

/-- The full category path `categorize` assigns, a function of the name. -/
def assignedPath (it : ReceiptItem) : Str := fullPath (getCategory it.name)

/-- Append an item to its key's group, keeping insertion order of keys
(Python dict semantics). -/
def insertGrouped : List (Str × List ReceiptItem) → Str → ReceiptItem →
    List (Str × List ReceiptItem)
  | [], k, it => [(k, [it])]
  | (k0, its) :: rest, k, it =>
    if k0 = k then (k0, its ++ [it]) :: rest
    else (k0, its) :: insertGrouped rest k it

/-- Loop body of `ExpenseCategorizer.categorize`: each item is filed under
its full path with its `category` field set to that path. -/
def categorizeGo (acc : List (Str × List ReceiptItem)) :
    List ReceiptItem → List (Str × List ReceiptItem)
  | [] => acc
  | it :: rest =>
    categorizeGo
      (insertGrouped acc (assignedPath it) { it with category := assignedPath it }) rest

/-- Embeds `ExpenseCategorizer.categorize`. -/
def categorize (items : List ReceiptItem) : List (Str × List ReceiptItem) :=
  categorizeGo [] items

/-- The in-place mutation `categorize` performs on its input list: every
item's `category` field becomes its full path. -/
def assignCategories (items : List ReceiptItem) : List ReceiptItem :=
  items.map (fun it => { it with category := assignedPath it })

/-- Embeds `ExpenseCategorizer.calculate_category_totals`. -/
def calculate_category_totals (g : List (Str × List ReceiptItem)) : List (Str × ℚ) :=
  g.map (fun pr => (pr.1, (pr.2.map (fun it => it.price)).sum))

/-- Embeds `SpendingAnalyzer.category_thresholds`. -/
def category_thresholds : List (Str × ℚ) :=
  [(str "Groceries", 200), (str "Dining", 100), (str "Shopping", 150),
   (str "Transportation", 100), (str "Healthcare", 100), (str "Other", 50)]

/-- Embeds `dict.get(main_category, 50)` on the thresholds. -/
def thresholdLookup (m : Str) : ℚ :=
  match category_thresholds.find? (fun pr => pr.1 == m) with
  | some pr => pr.2
  | none => 50

/-- Embeds `category.split(' > ')[0]`: the prefix before the first occurrence of
the separator (the whole string when absent). -/
def beforeSep : Str → Str
  | [] => []
  | c :: rest =>
    if prefixMatch (str " > ") (c :: rest) then [] else c :: beforeSep rest

/-- Anomaly record of `SpendingAnalyzer.identify_anomalies`. -/
structure Anomaly where
  category : Str
  amount : ℚ
  threshold : ℚ
  excess : ℚ
  severity : Str
deriving DecidableEq, Repr

/-- Embeds `SpendingAnalyzer.identify_anomalies`. -/
def identify_anomalies : List (Str × ℚ) → List Anomaly
  | [] => []
  | (c, a) :: rest =>
    if a > thresholdLookup (beforeSep c) then
      { category := c, amount := a, threshold := thresholdLookup (beforeSep c)
        excess := a - thresholdLookup (beforeSep c)
        severity := if a > thresholdLookup (beforeSep c) * mkRat 3 2
          then str "High" else str "Medium" } :: identify_anomalies rest
    else identify_anomalies rest

/-- Embeds `SpendingAnalyzer.calculate_percentages`. -/
def calculate_percentages (totals : List (Str × ℚ)) (total : ℚ) : List (Str × ℚ) :=
  if total = 0 then []
  else totals.map (fun pr => (pr.1, pr.2 / total * 100))

/-- Modelled from the claim wording of C5 (not from the source): price
pattern whose decimal point is mandatory — `\$?\s*(\d+\.\d{2})`. -/
def priceCoreStrict : Matcher :=
  mSeq (mPlusClass Char.isDigit)
    (mSeq (mChar '.') (mSeq (mClass Char.isDigit) (mClass Char.isDigit)))

/-- Anchored attempt of the mandatory-decimal-point pattern. -/
def priceStrictAt (s : Str) : Option (Str × Str × Str) :=
  ((mSeq (mOpt (mChar '$')) (mStarClass pyIsSpace)) s |>.flatMap
    (fun pr => (priceCoreStrict pr.2).map (fun qr => (pr.1 ++ qr.1, qr.1, qr.2)))).head?

/-- The `re.findall` scan for the mandatory-decimal-point pattern. -/
def findAllPriceStrictGo : Nat → Str → List Str
  | 0, _ => []
  | _ + 1, [] => []
  | fuel + 1, c :: rest =>
    match priceStrictAt (c :: rest) with
    | some (_, grp, r) => grp :: findAllPriceStrictGo fuel r
    | none => findAllPriceStrictGo fuel rest

def reFindallPriceStrict (s : Str) : List Str := findAllPriceStrictGo (s.length + 1) s

/-- First (main, sub) pair, in taxonomy order, whose subcategory keyword
occurs in the lower-cased name. -/
def firstSubMatch (low : Str) : List CatDef → Option (Str × Str)
  | [] => none
  | cd :: rest =>
    match subcatMatch low cd.subcats with
    | some s => some (cd.mainName, s)
    | none => firstSubMatch low rest

/-- Holds when no top-level keyword of any category occurs in the
lower-cased name. -/
def noMainKeyword (low : Str) (cats : List CatDef) : Bool :=
  cats.all (fun cd => !(cd.keywords.any (fun k => occursIn k low)))

/-- Modelled from the claim wording of C4: the fixed threshold map with
default 50 for unmapped main categories. -/
def specThreshold (m : Str) : ℚ :=
  if m = str "Groceries" then 200
  else if m = str "Dining" then 100
  else if m = str "Shopping" then 150
  else if m = str "Transportation" then 100
  else if m = str "Healthcare" then 100
  else if m = str "Other" then 50
  else 50

/-- Modelled from the claim wording of C4: the substring of the path
before any `" > "` separator. -/
def specMainOf : Str → Str
  | [] => []
  | c :: rest =>
    if prefixMatch (str " > ") (c :: rest) then [] else c :: specMainOf rest

/-- Modelled from the claim wording of C4: emit an anomaly exactly when
the amount exceeds its main category's threshold, with
`excess = amount − threshold` and severity High iff
`amount > 1.5 × threshold`. -/
def anomaliesSpec (totals : List (Str × ℚ)) : List Anomaly :=
  totals.filterMap (fun pr =>
    if pr.2 > specThreshold (specMainOf pr.1) then
      some
        { category := pr.1, amount := pr.2
          threshold := specThreshold (specMainOf pr.1)
          excess := pr.2 - specThreshold (specMainOf pr.1)
          severity := if pr.2 > mkRat 3 2 * specThreshold (specMainOf pr.1)
            then str "High" else str "Medium" }
    else none)

/-- The two items of spec Scenario 3. -/
def demoItems : List ReceiptItem :=
  [{ name := str "Starbucks Coffee", price := mkRat 9 2 },
   { name := str "Uber Ride", price := 12 }]

/-! ### Helper lemmas -/

/-- Total price over all groups. -/
def groupsTotal (g : List (Str × List ReceiptItem)) : ℚ :=
  (g.map (fun pr => (pr.2.map (fun it => it.price)).sum)).sum

theorem sumValues_totals (g : List (Str × List ReceiptItem)) :
    ((calculate_category_totals g).map Prod.snd).sum = groupsTotal g := by
  simp only [calculate_category_totals, groupsTotal, List.map_map]
  rfl

theorem groupsTotal_insertGrouped (g : List (Str × List ReceiptItem)) (k : Str)
    (it : ReceiptItem) :
    groupsTotal (insertGrouped g k it) = groupsTotal g + it.price := by
  induction g with
  | nil => simp [insertGrouped, groupsTotal]
  | cons hd tl ih =>
    obtain ⟨k0, its⟩ := hd
    unfold insertGrouped
    by_cases hk : k0 = k
    · rw [if_pos hk]
      simp [groupsTotal]
      ring
    · rw [if_neg hk]
      simp only [groupsTotal, List.map_cons, List.sum_cons] at ih ⊢
      rw [ih]
      ring

theorem categorizeGo_total (items : List ReceiptItem) :
    ∀ acc, groupsTotal (categorizeGo acc items) = groupsTotal acc + calculate_total items := by
  induction items with
  | nil =>
    intro acc
    simp [categorizeGo, calculate_total]
  | cons it rest ih =>
    intro acc
    simp only [categorizeGo]
    rw [ih, groupsTotal_insertGrouped]
    simp only [calculate_total, List.map_cons, List.sum_cons]
    ring

theorem assignedPath_update (it : ReceiptItem) (c : Str) :
    assignedPath { it with category := c } = assignedPath it := rfl

theorem update_update (it : ReceiptItem) (c d : Str) :
    ({ { it with category := c } with category := d } : ReceiptItem)
      = { it with category := d } := rfl

theorem categorizeGo_assignCategories (items : List ReceiptItem) :
    ∀ acc, categorizeGo acc (assignCategories items) = categorizeGo acc items := by
  induction items with
  | nil => intro acc; rfl
  | cons it rest ih =>
    intro acc
    simp only [assignCategories, List.map_cons, categorizeGo] at ih ⊢
    rw [assignedPath_update, update_update]
    exact ih _

theorem insertGrouped_key_inv (g : List (Str × List ReceiptItem)) (k0 : Str)
    (it0 : ReceiptItem)
    (hinv : ∀ k grp it, (k, grp) ∈ g → it ∈ grp → it.category = k)
    (hit : it0.category = k0) :
    ∀ k grp it, (k, grp) ∈ insertGrouped g k0 it0 → it ∈ grp → it.category = k := by
  induction g with
  | nil =>
    intro k grp it hmem hin
    simp only [insertGrouped, List.mem_singleton] at hmem
    injection hmem with hk hgrp
    subst hk; subst hgrp
    simp only [List.mem_singleton] at hin
    subst hin
    exact hit
  | cons hd tl ih =>
    obtain ⟨k1, its⟩ := hd
    have hinv_tl : ∀ k grp it, (k, grp) ∈ tl → it ∈ grp → it.category = k :=
      fun k grp it hm hi => hinv k grp it (List.mem_cons_of_mem _ hm) hi
    intro k grp it hmem hin
    unfold insertGrouped at hmem
    by_cases hk : k1 = k0
    · rw [if_pos hk] at hmem
      rcases List.mem_cons.mp hmem with heq | htl
      · injection heq with hkk hgrp
        subst hkk; subst hgrp
        rcases List.mem_append.mp hin with hl | hr
        · exact hinv k its it (List.mem_cons_self _ _) hl
        · simp only [List.mem_singleton] at hr
          subst hr
          rw [hit, hk]
      · exact hinv_tl k grp it htl hin
    · rw [if_neg hk] at hmem
      rcases List.mem_cons.mp hmem with heq | htl
      · injection heq with hkk hgrp
        subst hkk; subst hgrp
        exact hinv k grp it (List.mem_cons_self _ _) hin
      · exact ih hinv_tl k grp it htl hin

theorem categorizeGo_key_inv (items : List ReceiptItem) :
    ∀ acc, (∀ k grp it, (k, grp) ∈ acc → it ∈ grp → it.category = k) →
      ∀ k grp it, (k, grp) ∈ categorizeGo acc items → it ∈ grp → it.category = k := by
  induction items with
  | nil => intro acc hinv; exact hinv
  | cons it0 rest ih =>
    intro acc hinv
    simp only [categorizeGo]
    exact ih _ (insertGrouped_key_inv acc (assignedPath it0) _ hinv rfl)

theorem quantityOfLine_cases (line : Str) :
    (∃ ds, reSearchQuant line = some ds ∧ quantityOfLine line = (digitsToNat ds : ℚ)) ∨
    (reSearchQuant line = none ∧ quantityOfLine line = 1) := by
  unfold quantityOfLine
  cases h : reSearchQuant line with
  | none => exact Or.inr ⟨rfl, rfl⟩
  | some ds => exact Or.inl ⟨ds, rfl, rfl⟩

theorem quantityOfLine_nonneg (line : Str) : 0 ≤ quantityOfLine line := by
  unfold quantityOfLine
  cases reSearchQuant line with
  | none => norm_num
  | some ds => exact Nat.cast_nonneg _

theorem parseLine_shape {line : Str} {it : ReceiptItem} (h : parseLine line = some it) :
    it.quantity = quantityOfLine line ∧ mkRat 1 100 ≤ it.price ∧ it.price ≤ 1000 := by
  unfold parseLine at h
  split at h
  · exact absurd h (by simp)
  · split at h
    · exact absurd h (by simp)
    · split at h
      · exact absurd h (by simp)
      · rename_i hrange
        split at h
        · push_neg at hrange
          cases h
          exact ⟨rfl, hrange.2, hrange.1⟩
        · exact absurd h (by simp)

theorem mem_parse_exists {text : Str} {it : ReceiptItem} (h : it ∈ parse text) :
    ∃ line, line ∈ (stripStr text).splitOn '\n' ∧ parseLine line = some it := by
  unfold parse at h
  exact List.mem_filterMap.mp h

/-! ### Claim theorems -/

/-- C1 — Conservation law: the sum of the values of
`calculate_category_totals (categorize items)` equals the sum of the input
items' prices; no item is dropped or double-counted between stages. -/
theorem claim_C1 (items : List ReceiptItem) :
    ((calculate_category_totals (categorize items)).map Prod.snd).sum
      = calculate_total items := by
  rw [sumValues_totals]
  unfold categorize
  rw [categorizeGo_total]
  simp [groupsTotal]

/-- C8 — `calculate_percentages` returns the empty mapping when the total
is exactly 0, and otherwise maps each entry's amount to
`amount / total * 100`, keeping the keys. -/
theorem claim_C8 (totals : List (Str × ℚ)) (total : ℚ) :
    calculate_percentages totals 0 = [] ∧
    (total ≠ 0 → calculate_percentages totals total
      = totals.map (fun pr => (pr.1, pr.2 / total * 100))) := by
  constructor
  · simp [calculate_percentages]
  · intro h
    simp [calculate_percentages, h]

/-- Witness for C8 at a concrete mapping and a nonzero total. -/
theorem claim_C8_witness :
    (200 : ℚ) ≠ 0 ∧
    calculate_percentages [(str "A", 50)] 200 = [(str "A", (50 : ℚ) / 200 * 100)] :=
  ⟨by norm_num, (claim_C8 [(str "A", 50)] 200).2 (by norm_num)⟩

/-- C9 — Idempotence: re-categorizing the item list already mutated by a
first categorization gives exactly the same groups, and re-assigning
categories a second time changes nothing. -/
theorem claim_C9 (items : List ReceiptItem) :
    categorize (assignCategories items) = categorize items ∧
    assignCategories (assignCategories items) = assignCategories items := by
  constructor
  · exact categorizeGo_assignCategories items []
  · induction items with
    | nil => rfl
    | cons it rest ih =>
      simp only [assignCategories, List.map_cons, List.map_map] at ih ⊢
      rw [update_update] at *
      exact congrArg _ ih

/-- C10 — The assigned full category path is a function of the item name
alone, and every item stored in a group carries that group's key as its
`category` field. -/
theorem claim_C10 :
    (∀ a b : ReceiptItem, a.name = b.name → assignedPath a = assignedPath b) ∧
    (∀ (items : List ReceiptItem) (k : Str) (grp : List ReceiptItem) (it : ReceiptItem),
      (k, grp) ∈ categorize items → it ∈ grp → it.category = k) := by
  constructor
  · intro a b h
    unfold assignedPath
    rw [h]
  · intro items k grp it hmem hin
    exact categorizeGo_key_inv items [] (by simp) k grp it hmem hin

/-- Witness for C10: two items sharing the name but nothing else get the
same path, and in a concrete categorization the stored category equals the
group key. -/
theorem claim_C10_witness :
    assignedPath { name := str "milk", quantity := 1, price := 2 }
      = assignedPath { name := str "milk", quantity := 7, price := 99, category := str "X" } ∧
    ({ name := str "milk", quantity := 1, price := 2,
       category := str "Groceries > Dairy" } : ReceiptItem).category
      = str "Groceries > Dairy" :=
  ⟨claim_C10.1 _ _ rfl,
   claim_C10.2 [{ name := str "milk", quantity := 1, price := 2 }]
     (str "Groceries > Dairy")
     [{ name := str "milk", quantity := 1, price := 2,
        category := str "Groceries > Dairy" }]
     { name := str "milk", quantity := 1, price := 2,
       category := str "Groceries > Dairy" }
     (by decide) (by decide)⟩

theorem beforeSep_eq_specMainOf (s : Str) : beforeSep s = specMainOf s := by
  induction s with
  | nil => rfl
  | cons c rest ih => simp only [beforeSep, specMainOf, ih]

theorem thresholdLookup_eq_spec (m : Str) : thresholdLookup m = specThreshold m := by
  by_cases h1 : m = str "Groceries"
  · subst h1; decide
  by_cases h2 : m = str "Dining"
  · subst h2; decide
  by_cases h3 : m = str "Shopping"
  · subst h3; decide
  by_cases h4 : m = str "Transportation"
  · subst h4; decide
  by_cases h5 : m = str "Healthcare"
  · subst h5; decide
  by_cases h6 : m = str "Other"
  · subst h6; decide
  simp only [thresholdLookup, category_thresholds, specThreshold, List.find?,
    beq_eq_false_iff_ne.mpr (Ne.symm h1), beq_eq_false_iff_ne.mpr (Ne.symm h2),
    beq_eq_false_iff_ne.mpr (Ne.symm h3), beq_eq_false_iff_ne.mpr (Ne.symm h4),
    beq_eq_false_iff_ne.mpr (Ne.symm h5), beq_eq_false_iff_ne.mpr (Ne.symm h6),
    if_neg h1, if_neg h2, if_neg h3, if_neg h4, if_neg h5, if_neg h6]

theorem getCategoryIn_noMain (low : Str) (cats : List CatDef)
    (h : noMainKeyword low cats = true) :
    getCategoryIn low cats =
      (match firstSubMatch low cats with
       | some pr => (pr.1, some pr.2)
       | none => (str "Other", none)) := by
  induction cats with
  | nil => rfl
  | cons cd rest ih =>
    simp only [noMainKeyword, List.all_cons, Bool.and_eq_true, Bool.not_eq_true'] at h
    obtain ⟨h1, h2⟩ := h
    cases hsub : subcatMatch low cd.subcats with
    | some s => simp only [getCategoryIn, firstSubMatch, h1, hsub, Bool.false_eq_true,
        if_false]
    | none =>
      simp only [getCategoryIn, firstSubMatch, h1, hsub, Bool.false_eq_true, if_false]
      exact ih h2

/-- C2 — every item `parse` produces has `0.01 ≤ price ≤ 1000`, and a line
whose last extracted price lies outside this range produces no item. -/
theorem claim_C2 :
    (∀ (text : Str) (it : ReceiptItem), it ∈ parse text →
      mkRat 1 100 ≤ it.price ∧ it.price ≤ 1000) ∧
    (∀ (line m : Str) (ms : List Str), reFindallPrice line = m :: ms →
      (ratOfDigits ((m :: ms).getLast (List.cons_ne_nil m ms)) > 1000 ∨
        ratOfDigits ((m :: ms).getLast (List.cons_ne_nil m ms)) < mkRat 1 100) →
      parseLine line = none) := by
  constructor
  · intro text it hmem
    obtain ⟨line, _, hline⟩ := mem_parse_exists hmem
    exact (parseLine_shape hline).2
  · intro line m ms hfind hrange
    unfold parseLine
    split
    · rfl
    · simp only [hfind]
      rw [if_pos hrange]

/-- Witness for C2: a parsed item with in-range price, and a line whose
price 2000 is rejected. -/
theorem claim_C2_witness :
    ({ name := str "Apple", quantity := 1, price := mkRat 399 100,
       category := str "Uncategorized" } : ReceiptItem) ∈ parse (str "Apple 3.99") ∧
    (mkRat 1 100 ≤
        ({ name := str "Apple", quantity := 1, price := mkRat 399 100,
           category := str "Uncategorized" } : ReceiptItem).price ∧
      ({ name := str "Apple", quantity := 1, price := mkRat 399 100,
         category := str "Uncategorized" } : ReceiptItem).price ≤ 1000) ∧
    reFindallPrice (str "TV 2000.00") = [str "2000.00"] ∧
    parseLine (str "TV 2000.00") = none := by
  refine ⟨by decide, ?_, by decide, ?_⟩
  · exact claim_C2.1 (str "Apple 3.99") _ (by decide)
  · exact claim_C2.2 (str "TV 2000.00") (str "2000.00") [] (by decide) (by decide)

/-- C3 — when no main-category keyword occurs in the lower-cased name but
some subcategory keyword does, `_get_category` returns the first such
(main, sub) pair in taxonomy order, bypassing the main-keyword gate, and
the item is not assigned to "Other". -/
theorem claim_C3 (name m s : Str)
    (hmain : noMainKeyword (name.map Char.toLower) taxonomy = true)
    (hsub : firstSubMatch (name.map Char.toLower) taxonomy = some (m, s)) :
    getCategory name = (m, some s) ∧ getCategory name ≠ (str "Other", none) := by
  have h := getCategoryIn_noMain (name.map Char.toLower) taxonomy hmain
  rw [hsub] at h
  have hg : getCategory name = (m, some s) := h
  refine ⟨hg, ?_⟩
  rw [hg]
  simp

/-- Witness for C3 at the name "milk": no main keyword occurs, the first
subcategory match is Groceries/Dairy, and that is the assigned pair. -/
theorem claim_C3_witness :
    noMainKeyword ((str "milk").map Char.toLower) taxonomy = true ∧
    firstSubMatch ((str "milk").map Char.toLower) taxonomy
      = some (str "Groceries", str "Dairy") ∧
    getCategory (str "milk") = (str "Groceries", some (str "Dairy")) :=
  ⟨by decide, by decide,
   (claim_C3 (str "milk") (str "Groceries") (str "Dairy") (by decide) (by decide)).1⟩

/-- C4 — `identify_anomalies` emits, for exactly the entries whose amount
exceeds the main-category threshold (fixed map, default 50), a record with
`excess = amount − threshold` and severity High iff
`amount > 1.5 × threshold`. -/
theorem claim_C4 (totals : List (Str × ℚ)) :
    identify_anomalies totals = anomaliesSpec totals := by
  induction totals with
  | nil => rfl
  | cons pr rest ih =>
    obtain ⟨c, a⟩ := pr
    by_cases hgt : a > specThreshold (specMainOf c)
    · simp only [identify_anomalies, anomaliesSpec, List.filterMap_cons,
        beforeSep_eq_specMainOf, thresholdLookup_eq_spec, hgt, if_true]
      rw [mul_comm (specThreshold (specMainOf c)) (mkRat 3 2)]
      simp only [anomaliesSpec] at ih
      rw [ih]
    · simp only [identify_anomalies, anomaliesSpec, List.filterMap_cons,
        beforeSep_eq_specMainOf, thresholdLookup_eq_spec, hgt, if_false]
      simp only [anomaliesSpec] at ih
      exact ih

/-- C5 counterexample — the line "Apple 123" contains no substring of the
claimed form (mandatory decimal point), yet `parse` produces an item from
it: the code's pattern makes the decimal point optional. -/
theorem claim_C5_counterexample :
    reFindallPriceStrict (str "Apple 123") = [] ∧
    parse (str "Apple 123") =
      [{ name := str "Apple", quantity := 1, price := 123,
         category := str "Uncategorized" }] ∧
    parse (str "Apple 123") ≠ [] := by
  refine ⟨by decide, by decide, by decide⟩

/-- C5 (amended) — a line on which the code's price pattern (decimal point
optional, so also three-or-more digit runs) finds no match produces no
item. -/
theorem claim_C5_amended (line : Str) (h : reFindallPrice line = []) :
    parseLine line = none := by
  unfold parseLine
  split
  · rfl
  · simp only [h]

/-- Witness for the amended C5: a line whose only numeric content is two
digits is discarded. -/
theorem claim_C5_witness :
    reFindallPrice (str "Apple 12") = [] ∧ parseLine (str "Apple 12") = none :=
  ⟨by decide, claim_C5_amended (str "Apple 12") (by decide)⟩

/-- C7 counterexample — the line "0 x Apple 3.99" yields an item with
quantity 0: the captured quantity digits are used unchecked, so the
quantity is not always positive. -/
theorem claim_C7_counterexample :
    parse (str "0 x Apple 3.99") =
      [{ name := str "Apple", quantity := 0, price := mkRat 399 100,
         category := str "Uncategorized" }] ∧
    ¬ (0 <
        ({ name := str "Apple", quantity := 0, price := mkRat 399 100,
           category := str "Uncategorized" } : ReceiptItem).quantity) := by
  refine ⟨by decide, by decide⟩

/-- C7 (amended) — every parsed item's quantity is non-negative, and on
its source line it equals the captured quantity-marker digits when the
marker is present and 1.0 when absent. -/
theorem claim_C7 (text : Str) (it : ReceiptItem) (hmem : it ∈ parse text) :
    0 ≤ it.quantity ∧
    ∃ line, line ∈ (stripStr text).splitOn '\n' ∧ parseLine line = some it ∧
      ((∃ ds, reSearchQuant line = some ds ∧ it.quantity = (digitsToNat ds : ℚ)) ∨
       (reSearchQuant line = none ∧ it.quantity = 1)) := by
  obtain ⟨line, hmemline, hline⟩ := mem_parse_exists hmem
  have hq := (parseLine_shape hline).1
  constructor
  · rw [hq]
    exact quantityOfLine_nonneg line
  · refine ⟨line, hmemline, hline, ?_⟩
    rw [hq]
    exact quantityOfLine_cases line

/-- Witness for the amended C7: "2x Milk $3.99" parses with quantity 2. -/
theorem claim_C7_witness :
    ({ name := str "Milk", quantity := 2, price := mkRat 399 100,
       category := str "Uncategorized" } : ReceiptItem) ∈ parse (str "2x Milk $3.99") ∧
    0 ≤
      ({ name := str "Milk", quantity := 2, price := mkRat 399 100,
         category := str "Uncategorized" } : ReceiptItem).quantity :=
  ⟨by decide, (claim_C7 (str "2x Milk $3.99") _ (by decide)).1⟩

/-- C6 counterexample — categorizing the Scenario 3 items produces no
group "Dining > Coffee Shop": "Starbucks Coffee" matches the Groceries
subcategory keyword "coffee" (Beverages) before Dining is reached. -/
theorem claim_C6_counterexample :
    ¬ (str "Dining > Coffee Shop") ∈ (categorize demoItems).map Prod.fst := by
  decide

/-- C6 (amended) — the Scenario 3 items are grouped as
"Groceries > Beverages" (Starbucks Coffee) and
"Transportation > Rideshare" (Uber Ride), with totals 4.50 and 12.00. -/
theorem claim_C6 :
    categorize demoItems =
      [(str "Groceries > Beverages",
        [{ name := str "Starbucks Coffee", quantity := 1, price := mkRat 9 2,
           category := str "Groceries > Beverages" }]),
       (str "Transportation > Rideshare",
        [{ name := str "Uber Ride", quantity := 1, price := 12,
           category := str "Transportation > Rideshare" }])] ∧
    calculate_category_totals (categorize demoItems) =
      [(str "Groceries > Beverages", mkRat 9 2),
       (str "Transportation > Rideshare", 12)] := by
  have h : categorize demoItems =
      [(str "Groceries > Beverages",
        [{ name := str "Starbucks Coffee", quantity := 1, price := mkRat 9 2,
           category := str "Groceries > Beverages" }]),
       (str "Transportation > Rideshare",
        [{ name := str "Uber Ride", quantity := 1, price := 12,
           category := str "Transportation > Rideshare" }])] := by decide
  refine ⟨h, ?_⟩
  rw [h]
  simp [calculate_category_totals]

end Receipt
